import Mathlib

/-!
# Verification of the igc-spending-insights classification and anomaly core

Shallow embedding of `src/classify.py`, `src/config.py` and `src/anomalies.py`.

Modelling conventions:
* A polars DataFrame is a `List Row` (resp. `List Anomaly`); columnar
  expressions, which are row-local in this code base, become per-row functions.
* Python `float` amounts are modelled as `ℚ` (the amounts and thresholds the
  claims exercise are exactly representable and exactly compared).
* `pl.Date` values are modelled as `ℤ` day numbers; the polars date subtraction
  `(d2 - d1).days` becomes integer subtraction.
* Human-readable `details` strings are built from the same components as the
  Python f-strings, but without thousands separators or decimal rounding
  (no claim depends on the exact text).
* Python dicts that the code only iterates over in insertion order are
  association lists in that order.
-/

/-- A standardised transaction row, as consumed by `classify_payments` and
`detect_anomalies` (columns of the ingestion contract that the core reads,
plus the `category` column which may or may not be present/filled). -/
structure Row where
  department : String
  expense_type : String
  description : String
  supplier : String
  amount : ℚ
  date : ℤ
  category : String
deriving DecidableEq, Repr

/-- An anomaly row: the fixed seven-column schema of `_empty_anomaly_df`. -/
structure Anomaly where
  anomaly_type : String
  severity : String
  department : String
  supplier : String
  details : String
  amount : ℚ
  count : ℕ
deriving DecidableEq, Repr

/-! ## Configuration (`src/config.py`) -/

/-- Model of `config.CATEGORIES`: the closed 8-category enumeration. -/
def CATEGORIES : List String :=
  ["IT", "Consultancy", "Construction", "Operations", "Legal",
   "HR/Staffing", "Grants", "Administrative"]

/-- Model of `config.CATEGORY_KEYWORDS`: category → keyword list, in declaration order. -/
def CATEGORY_KEYWORDS : List (String × List String) :=
  [("IT",
    ["software", "IT", "licence", "license", "system", "digital", "cloud",
     "hosting", "server", "hardware", "telephony", "computer", "laptop",
     "ICT", "infrastructure", "network", "data centre", "data center",
     "IT RUN", "END USER COMPUTER", "NETWORKING", "DATA CHARGES",
     "application licensing", "technical service", "connectivity"]),
   ("Consultancy",
    ["consultancy", "consulting", "consultant", "advisory", "professional services",
     "technical", "organisational", "organizational", "market", "research",
     "audit", "accounting", "finance", "tax", "forensic",
     "HIRE OF CONSULTANTS", "MANAGEMENT CONSULT", "user research"]),
   ("Construction",
    ["construction", "building", "infrastructure", "AUC",
     "capital", "renewal", "maintenance", "estate", "facilities",
     "refurbishment", "repair", "property", "leasehold",
     "BUILDING SERVICE", "ESTATE MANAGEMENT", "PROPERTY MAINTENANCE",
     "vessel maintenance", "motorcycle maintenance"]),
   ("Operations",
    ["TOC", "train", "rail", "travel", "accommodation", "hotel",
     "vehicle", "fleet", "fuel", "fares", "aviation", "franchise",
     "utilities", "electricity", "gas", "water", "energy",
     "marketing", "advertising", "campaign", "media", "PR",
     "postal", "courier", "mail",
     "ARVAL FUEL", "RAIL FARES", "ASYLUM SEEKER TRAVEL",
     "eurocontrol", "flying charge", "corporate travel"]),
   ("Legal",
    ["legal", "barrister", "solicitor", "counsel", "appeal",
     "litigation", "tribunal", "LEGAL ADVICE", "LEGAL REPRESENTATION",
     "ADVERSE LEGAL", "claim", "liability"]),
   ("HR/Staffing",
    ["contingent labour", "mandays", "recruitment", "contractor",
     "agency", "temporary", "staffing", "personnel",
     "CONTINGENT LABOUR", "PROJECT MANDAYS", "AGENCY STAFF",
     "basic salary", "salary", "apprentice levy",
     "partner: staffing", "technical partner", "commercial partner"]),
   ("Grants",
    ["grant", "grt", "subsidy", "subsid", "aid", "fund", "payment to", "transfer",
     "GRT AID", "CAP GRT", "CURR GRT", "CAPITAL GRANT", "grant in aid"]),
   ("Administrative",
    ["business rates", "insurance", "car parking", "parking",
     "conference", "training", "learning", "subscription", "membership",
     "office", "stationery", "supplies", "camera", "equipment",
     "bank charges", "block charges", "service charge", "allocation",
     "PFI", "unitary", "suspense", "GR/IR",
     "CS LEARNING", "CONFERENCES", "BPO VOLUMETRIC", "DIRECT COSTS",
     "FM ALLOCATION", "printing", "non-stock", "expense claim"])]

/-- Model of `config.DIRECT_EXPENSE_TYPE_MAPPING`: department → (expense_type → category). -/
def DIRECT_EXPENSE_TYPE_MAPPING : List (String × List (String × String)) :=
  [("HMRC",
    [("PROJECT Mandays Supp", "HR/Staffing"),
     ("Utility Payments - electricity", "Operations"),
     ("PROJECT Mandays HMRC", "HR/Staffing"),
     ("Project Development", "IT"),
     ("Physical Hosting and Infrastructure", "IT"),
     ("System Maintenance", "IT"),
     ("Property Management Services (Irrecoverable VAT)", "Construction"),
     ("Project support", "IT"),
     ("Desktop Services", "IT"),
     ("Rent (Irrec VAT)", "Construction"),
     ("Virtual Hosting and Infrastructure", "IT"),
     ("IT Software Licenses and Support", "IT"),
     ("Employee education", "Administrative"),
     ("Contin Labor Build", "HR/Staffing"),
     ("Contracted Services", "Operations"),
     ("Consultancy - IT", "Consultancy"),
     ("Projects VAT irrec", "IT"),
     ("Tribunal appellant costs", "Legal"),
     ("Maintenance fees", "Construction"),
     ("Contingent Labour Build", "HR/Staffing")]),
   ("Home Office",
    [("IT RUN COST", "IT"),
     ("CONTINGENT LABOUR OTHER", "HR/Staffing"),
     ("OTHER ICT COSTS", "IT"),
     ("SYSTEM CLEARING", "IT"),
     ("FULL COST", "HR/Staffing"),
     ("RESEARCH AND DEVELOPMENT", "Consultancy"),
     ("HOSTING", "IT"),
     ("ASYLUM CASES", "Operations"),
     ("END USER COMPUTER SOFTWARE", "IT"),
     ("IN COUNTRY ESCORT", "Operations"),
     ("ADVICE", "Consultancy"),
     ("RUN COSTS", "Operations"),
     ("SPECIALIST USER SOFTWARE & HARDWARE", "IT"),
     ("BASIC SALARY", "HR/Staffing"),
     ("CONTRACTS", "Operations"),
     ("PROJECT", "IT"),
     ("LEGAL ADVICE", "Legal"),
     ("AD PRODUCTION", "Operations"),
     ("FLEET MANAGEMENT", "Operations"),
     ("OTHER", "Administrative")]),
   ("DfT",
    [("TA Cost AUC - Programme", "Construction"),
     ("TA Renewal of Roads - Capital", "Construction"),
     ("Subsidies Private Se", "Grants"),
     ("TA Renewal of Structures - Capital", "Construction"),
     ("Cap Grt Loc Auth", "Grants"),
     ("TA Cost AUC  Non SRN", "Construction"),
     ("CM - Lump Sum Fees", "Construction"),
     ("AUC - Phase 1", "Construction"),
     ("Contractor Costs", "HR/Staffing"),
     ("RM Cost Reimbursable", "Construction"),
     ("TA Cost AUC – Non SRN", "Construction"),
     ("Support Services", "Administrative"),
     ("Research", "Consultancy"),
     ("Professional Services", "Consultancy"),
     ("Cap Grt Pri Sec-Cos.", "Grants"),
     ("Mail Collection/Deli", "Operations"),
     ("IT Ser Running Costs", "IT"),
     ("Consultants Costs", "Consultancy"),
     ("PFI Service Payments", "Administrative"),
     ("TOCOpCosts(Pub)", "Operations")])]

/-- Model of `config.ANOMALY_THRESHOLDS['high_payment']`: per-department cutoffs. -/
def HIGH_PAYMENT_THRESHOLDS : List (String × ℚ) :=
  [("HMRC", 934000), ("Home Office", 884000), ("DfT", 1360000)]

/-- Model of `config.ANOMALY_THRESHOLDS['concentration_threshold_spend']` = 0.15. -/
def concentration_threshold_spend : ℚ := 15 / 100

/-- Model of `config.ANOMALY_THRESHOLDS['concentration_threshold_txn']` = 0.10. -/
def concentration_threshold_txn : ℚ := 10 / 100

/-- Model of `config.ANOMALY_THRESHOLDS['duplicate_window_days']` = 7. -/
def duplicate_window_days : ℤ := 7

/-! ## Classification (`src/classify.py`) -/

/-- Contiguous-substring test on character lists. -/
def charListInfix (needle : List Char) : List Char → Bool
  | [] => needle.isEmpty
  | c :: t => needle.isPrefixOf (c :: t) || charListInfix needle t

/-- Case-insensitive substring test: the effect of the polars condition
`description.str.contains('(?i)kw1|(?i)kw2|...')` for one keyword (none of the
configured keywords contains a regex metacharacter, so the regex is a plain
case-insensitive substring alternation). -/
def containsCI (haystack keyword : String) : Bool :=
  charListInfix (keyword.toList.map Char.toLower) (haystack.toList.map Char.toLower)

/-- One keyword list matches a field iff some keyword is a case-insensitive
substring of it (the regex alternation built in `classify_payments`). -/
def keywordsMatch (keywords : List String) (field : String) : Bool :=
  keywords.any (fun kw => containsCI field kw)

/-- The flattened `tier0_conditions` list built by `classify_payments`:
for each department of the direct mapping in order, for each
(expense_type, category) entry in order, one ((department, expense_type),
category) condition. -/
def tier0Conditions (dm : List (String × List (String × String))) :
    List ((String × String) × String) :=
  dm.flatMap (fun d => d.2.map (fun e => ((d.1, e.1), e.2)))

/-- Model of `result = df.with_columns(pl.lit('').alias('category'))`: (re)set the
category column to the empty string. -/
def resetCategory (r : Row) : Row := { r with category := "" }

/-- Tier 0 per-row semantics: the chain
`expr = when(cond_1).then(cat_1).otherwise(... otherwise(pl.col('category')))`
built by wrapping in list order, so the later entry is tested first; each
condition reads the pre-tier-0 `category` column. Skipped when
`use_direct_map` is false. -/
def applyTier0 (dm : List (String × List (String × String))) (use_direct_map : Bool)
    (r : Row) : Row :=
  if use_direct_map then
    let cat :=
      (tier0Conditions dm).foldl
        (fun acc c =>
          if r.department == c.1.1 && r.expense_type == c.1.2 && r.category == ""
          then c.2 else acc)
        r.category
    { r with category := cat }
  else r

/-- One keyword-matching tier (Tiers 1 and 2): iterate categories in
declaration order; where the (current) category is still empty and the field
matches the category's keywords, assign that category. -/
def applyKeywordTier (kt : List (String × List String)) (field : Row → String)
    (r : Row) : Row :=
  let cat :=
    kt.foldl
      (fun acc c => if acc == "" && keywordsMatch c.2 (field r) then c.1 else acc)
      r.category
  { r with category := cat }

/-- The final rewrite: any still-empty category becomes `Uncategorised`. -/
def applyFallback (r : Row) : Row :=
  if r.category == "" then { r with category := "Uncategorised" } else r

/-- Per-row composition of `classify_payments`'s column rewrites, with the
direct mapping and keyword table as explicit configuration. -/
def classifyRowWith (dm : List (String × List (String × String)))
    (kt : List (String × List String)) (use_direct_map : Bool) (r : Row) : Row :=
  applyFallback
    (applyKeywordTier kt Row.expense_type
      (applyKeywordTier kt Row.description
        (applyTier0 dm use_direct_map (resetCategory r))))

/-- Model of `classify_payments(df, use_direct_map)` over an explicit configuration. -/
def classify_paymentsWith (dm : List (String × List (String × String)))
    (kt : List (String × List String)) (df : List Row) (use_direct_map : Bool) :
    List Row :=
  df.map (classifyRowWith dm kt use_direct_map)

/-- Model of `classify_payments` with the repository's configuration constants. -/
def classify_payments (df : List Row) (use_direct_map : Bool) : List Row :=
  classify_paymentsWith DIRECT_EXPENSE_TYPE_MAPPING CATEGORY_KEYWORDS df use_direct_map

/-! ## Anomaly detection (`src/anomalies.py`) -/

/-- Model of `detect_high_payments`: for each configured (department, threshold), one
`high_payment` anomaly per row of that department whose amount strictly
exceeds the threshold.  (The Python `if anomalies: pl.DataFrame(anomalies)
else: _empty_anomaly_df()` is the identity on the row list.) -/
def detect_high_payments (df : List Row) : List Anomaly :=
  HIGH_PAYMENT_THRESHOLDS.flatMap (fun t =>
    (df.filter (fun r => r.department == t.1 && t.2 < r.amount)).map (fun r =>
      { anomaly_type := "high_payment"
        severity := "high"
        department := r.department
        supplier := r.supplier
        details := "Payment of £" ++ toString r.amount ++ " exceeds £" ++
          toString t.2 ++ " threshold"
        amount := r.amount
        count := 1 }))

/-- The keys of `df.group_by(['department', 'supplier', 'amount'])`, one per
distinct key (polars does not fix the group order; we fix one enumeration of
the distinct keys). -/
def dupKeys (df : List Row) : List (String × String × ℚ) :=
  (df.map (fun r => (r.department, r.supplier, r.amount))).dedup

/-- Row membership in the group of key `k`. -/
def keyMatches (k : String × String × ℚ) (r : Row) : Bool :=
  r.department == k.1 && r.supplier == k.2.1 && r.amount == k.2.2

/-- The aggregation `pl.col('date').sort()` for the group of `k` (an
ascending sort; insertion sort keeps the model kernel-computable). -/
def groupDates (df : List Row) (k : String × String × ℚ) : List ℤ :=
  List.insertionSort (· ≤ ·) ((df.filter (keyMatches k)).map Row.date)

/-- The aggregation `pl.len()` for the group of `k`: the group size. -/
def groupCount (df : List Row) (k : String × String × ℚ) : ℕ :=
  (df.filter (keyMatches k)).length

/-- The adjacent-pair loop of `detect_duplicate_patterns`:
`for i in range(len(dates) - 1): if (dates[i+1] - dates[i]).days <= window: ...`
with early exit, i.e. some adjacent gap of the (sorted) date list is `≤ w`. -/
def hasCloseDates (dates : List ℤ) (w : ℤ) : Bool :=
  match dates with
  | [] => false
  | [_] => false
  | a :: b :: rest => decide (b - a ≤ w) || hasCloseDates (b :: rest) w

/-- Model of `detect_duplicate_patterns`: group by (department, supplier, amount), keep
groups of size ≥ 2 whose sorted dates contain an adjacent pair within the
window, and emit one anomaly per such group. -/
def detect_duplicate_patterns (df : List Row) : List Anomaly :=
  let potential_dupes := (dupKeys df).filter (fun k => 2 ≤ groupCount df k)
  (potential_dupes.filter
      (fun k => hasCloseDates (groupDates df k) duplicate_window_days)).map
    (fun k =>
      let count := groupCount df k
      { anomaly_type := "duplicate_pattern"
        severity := if 4 ≤ count then "high" else "medium"
        department := k.1
        supplier := k.2.1
        details := "£" ++ toString k.2.2 ++ " paid " ++ toString count ++
          " times within " ++ toString duplicate_window_days ++ " days"
        amount := k.2.2
        count := count })

/-- Model of `dept_spend` aggregation: the department's total amount. -/
def deptTotalSpend (df : List Row) (d : String) : ℚ :=
  ((df.filter (fun r => r.department == d)).map Row.amount).sum

/-- Model of `dept_txns` aggregation: the department's transaction count. -/
def deptTxnCount (df : List Row) (d : String) : ℕ :=
  (df.filter (fun r => r.department == d)).length

/-- Model of `supplier_spend` aggregation: the supplier's total amount within `d`. -/
def supplierTotalSpend (df : List Row) (d s : String) : ℚ :=
  ((df.filter (fun r => r.department == d && r.supplier == s)).map Row.amount).sum

/-- Supplier transaction count within department `d`. -/
def supplierTxnCount (df : List Row) (d s : String) : ℕ :=
  (df.filter (fun r => r.department == d && r.supplier == s)).length

/-- The keys of `df.group_by(['department', 'supplier'])`. -/
def supplierPairs (df : List Row) : List (String × String) :=
  (df.map (fun r => (r.department, r.supplier))).dedup

/-- Model of `detect_supplier_concentration`: the spend-share sub-analysis followed by
the transaction-share sub-analysis, appended in that order (the Python
`results` list receives all spend rows, then all txn rows). -/
def detect_supplier_concentration (df : List Row) : List Anomaly :=
  let spendResults :=
    ((supplierPairs df).filter (fun p =>
        concentration_threshold_spend <
          supplierTotalSpend df p.1 p.2 / deptTotalSpend df p.1)).map
      (fun p =>
        { anomaly_type := "supplier_concentration_spend"
          severity := "high"
          department := p.1
          supplier := p.2
          details := toString
              (supplierTotalSpend df p.1 p.2 / deptTotalSpend df p.1 * 100) ++
            "% of department total spend"
          amount := supplierTotalSpend df p.1 p.2
          count := supplierTxnCount df p.1 p.2 })
  let txnResults :=
    ((supplierPairs df).filter (fun p =>
        concentration_threshold_txn <
          (supplierTxnCount df p.1 p.2 : ℚ) / (deptTxnCount df p.1 : ℚ))).map
      (fun p =>
        { anomaly_type := "supplier_concentration_txn"
          severity := "medium"
          department := p.1
          supplier := p.2
          details := toString
              ((supplierTxnCount df p.1 p.2 : ℚ) / (deptTxnCount df p.1 : ℚ) * 100) ++
            "% of department transactions"
          amount := supplierTotalSpend df p.1 p.2
          count := supplierTxnCount df p.1 p.2 })
  spendResults ++ txnResults

/-- Model of `pl.concat(items, how="vertical")`: polars raises
`ValueError("cannot concat empty list")` when `items` is empty, and otherwise
vertically concatenates the frames. -/
def pl_concat (dfs : List (List Anomaly)) : Except String (List Anomaly) :=
  if dfs.isEmpty then Except.error "cannot concat empty list"
  else Except.ok dfs.flatten

/-- Model of `detect_anomalies`: run the three detector functions, and concatenate the
non-empty results (`pl.concat([a for a in all_anomalies if len(a) > 0])`).
The `else` branch returning `_empty_anomaly_df()` is only reached when the
Python list `all_anomalies` itself is empty, which never happens (it always
holds exactly three frames). -/
def detect_anomalies (df : List Row) : Except String (List Anomaly) :=
  let all_anomalies :=
    [detect_high_payments df, detect_duplicate_patterns df,
     detect_supplier_concentration df]
  if all_anomalies.isEmpty then Except.ok []
  else pl_concat (all_anomalies.filter (fun a => 0 < a.length))

/-- Modelled from the spec (for the refinement claim about duplicate
detection): the naive all-pairs check — "there exist two records anywhere in
the group whose dates are at most `windowDays` apart". -/
def anyPairWithinNaive (dates : List ℤ) (w : ℤ) : Bool :=
  decide (∃ i j : Fin dates.length, i < j ∧ |dates.get j - dates.get i| ≤ w)

/-- The dictionary lookup `directMapping[department][expense_type]` of the
specification: find the department's mapping, then the expense type's entry,
by exact string match. -/
def directMapLookup (dm : List (String × List (String × String))) (d e : String) :
    Option String :=
  (dm.find? (fun p => p.1 == d)).bind
    (fun p => (p.2.find? (fun q => q.1 == e)).map Prod.snd)

/-- The first category, in declaration order, one of whose keywords occurs as
a case-insensitive substring of `text` (the spec's Tier 1/2 winner). -/
def firstKeywordCategory (kt : List (String × List String)) (text : String) :
    Option String :=
  (kt.find? (fun c => keywordsMatch c.2 text)).map Prod.fst

/-- A row qualifies for a high-payment anomaly: its department has a
configured threshold and its amount strictly exceeds it. -/
def qualifiesHighPayment (r : Row) : Bool :=
  HIGH_PAYMENT_THRESHOLDS.any (fun t => r.department == t.1 && t.2 < r.amount)

/-- The projection of an anomaly row the high-payment detector copies from the
transaction row. -/
def anomalyTriple (a : Anomaly) : String × String × ℚ :=
  (a.department, a.supplier, a.amount)

/-- The projection of a transaction row matched by `anomalyTriple`. -/
def rowTriple (r : Row) : String × String × ℚ :=
  (r.department, r.supplier, r.amount)

/-- Position of a detector's anomaly type in the fixed emission order of
`detect_anomalies` (anything else ranks 4). -/
def anomalyTypeRank (t : String) : ℕ :=
  if t = "high_payment" then 0
  else if t = "duplicate_pattern" then 1
  else if t = "supplier_concentration_spend" then 2
  else if t = "supplier_concentration_txn" then 3
  else 4

/-- An HMRC payment of 934,001 — one unit above the 934,000 threshold. -/
def hpWitnessRow : Row :=
  { department := "HMRC", expense_type := "X", description := "d",
    supplier := "BIGCO", amount := 934001, date := 0, category := "" }

/-- The spec's duplicate example: three payments of the same amount to the
same supplier on days 0, 2 and 31. -/
def dupWitnessDf : List Row :=
  [{ department := "HMRC", expense_type := "", description := "", supplier := "S",
     amount := 100, date := 0, category := "" },
   { department := "HMRC", expense_type := "", description := "", supplier := "S",
     amount := 100, date := 2, category := "" },
   { department := "HMRC", expense_type := "", description := "", supplier := "S",
     amount := 100, date := 31, category := "" }]

/-- Department `D` with total spend 1,000,000: supplier `A` holds 160,000
(16%), supplier `B` the rest. -/
def concWitnessDf : List Row :=
  [{ department := "D", expense_type := "", description := "", supplier := "A",
     amount := 160000, date := 0, category := "" },
   { department := "D", expense_type := "", description := "", supplier := "B",
     amount := 840000, date := 1, category := "" }]

/-- A transaction matching nothing anywhere, used to witness the classifier
invariants on a concrete run. -/
def c5WitnessRow : Row :=
  { department := "DfT", expense_type := "Qqqq", description := "zzzz",
    supplier := "SOLO", amount := 1, date := 0, category := "" }

/-- The classified output row for `c5WitnessRow`. -/
def c5WitnessOut : Row :=
  (classify_paymentsWith DIRECT_EXPENSE_TYPE_MAPPING CATEGORY_KEYWORDS
    [c5WitnessRow] true).getD 0 c5WitnessRow

/-- A single HMRC row that is simultaneously a high payment and a fully
concentrated supplier: the report holds one row of each of three types. -/
def ordWitnessDf : List Row :=
  [{ department := "HMRC", expense_type := "", description := "",
     supplier := "ONLY", amount := 1000000, date := 0, category := "" }]

/-- The anomaly report computed for `ordWitnessDf`: one row per type, in
detector order. -/
def ordWitnessOut : List Anomaly :=
  [{ anomaly_type := "high_payment", severity := "high", department := "HMRC",
     supplier := "ONLY", details := "Payment of £1000000 exceeds £934000 threshold",
     amount := 1000000, count := 1 },
   { anomaly_type := "supplier_concentration_spend", severity := "high",
     department := "HMRC", supplier := "ONLY",
     details := "100% of department total spend", amount := 1000000, count := 1 },
   { anomaly_type := "supplier_concentration_txn", severity := "medium",
     department := "HMRC", supplier := "ONLY",
     details := "100% of department transactions", amount := 1000000, count := 1 }]

/-! ## Classifier theorems -/

/-- Resetting the category column erases whatever value it previously held. -/
theorem resetCategory_set_category (r : Row) (x : String) :
    resetCategory { r with category := x } = resetCategory r := rfl

/-- The per-row classification only sees the row through `resetCategory`, so a
pre-existing category value is invisible to it. -/
theorem classifyRowWith_set_category (dm : List (String × List (String × String)))
    (kt : List (String × List String)) (u : Bool) (r : Row) (x : String) :
    classifyRowWith dm kt u { r with category := x } = classifyRowWith dm kt u r := by
  simp only [classifyRowWith, resetCategory_set_category]

/-- C9: classification discards any pre-existing `category` values: running
`classify_payments` on a table whose `category` column holds arbitrary values
gives the same result (hence the same category assignment for every record) as
running it on the table without those values, so classification is idempotent. -/
theorem classify_payments_ignores_existing_category
    (df : List Row) (use_direct_map : Bool) (f : Row → String) :
    classify_payments (df.map (fun r => { r with category := f r })) use_direct_map =
      classify_payments df use_direct_map := by
  simp only [classify_payments, classify_paymentsWith, List.map_map, Function.comp]
  refine List.map_congr_left (fun r _ => ?_)
  simp only [Function.comp_apply]
  rw [classifyRowWith_set_category]

/-! ## Anomaly-engine aggregation -/

/-- When every detector returns zero rows, the list comprehension
`[a for a in all_anomalies if len(a) > 0]` is empty and `pl.concat` raises
`ValueError("cannot concat empty list")`; the `else` branch that would return
`_empty_anomaly_df()` is unreachable because `all_anomalies` always holds the
three detector frames. -/
theorem detect_anomalies_error_of_all_empty (df : List Row)
    (h1 : detect_high_payments df = [])
    (h2 : detect_duplicate_patterns df = [])
    (h3 : detect_supplier_concentration df = []) :
    detect_anomalies df = Except.error "cannot concat empty list" := by
  simp [detect_anomalies, h1, h2, h3, pl_concat]

/-- C1 (refuted by the code): on the empty table every detector returns zero
anomalies, yet `detect_anomalies` raises (`ValueError`, modelled as
`Except.error`) instead of returning the empty-but-typed anomaly table. -/
theorem detect_anomalies_empty_input_errors :
    detect_high_payments [] = [] ∧ detect_duplicate_patterns [] = [] ∧
    detect_supplier_concentration [] = [] ∧
    detect_anomalies [] = Except.error "cannot concat empty list" :=
  ⟨rfl, rfl, rfl, detect_anomalies_error_of_all_empty [] rfl rfl rfl⟩

/-! ## Lemmas about the conditional-overwrite folds -/

/-- A keyword-tier fold never changes a non-empty accumulator: its condition
requires the current category to be empty. -/
theorem keywordFoldl_of_ne_empty (kt : List (String × List String)) (text acc : String)
    (h : acc ≠ "") :
    kt.foldl (fun a c => if a == "" && keywordsMatch c.2 text then c.1 else a) acc
      = acc := by
  induction kt with
  | nil => rfl
  | cons hd tl ih =>
    have hb : (acc == "") = false := beq_eq_false_iff_ne.mpr h
    simp only [List.foldl_cons, hb, Bool.false_and, Bool.false_eq_true, if_false]
    exact ih

/-- A keyword tier leaves a row with a non-empty category unchanged. -/
theorem applyKeywordTier_of_ne_empty (kt : List (String × List String))
    (field : Row → String) (r : Row) (h : r.category ≠ "") :
    applyKeywordTier kt field r = r := by
  simp only [applyKeywordTier]
  rw [keywordFoldl_of_ne_empty kt (field r) r.category h]

/-- The fallback rewrite leaves a row with a non-empty category unchanged. -/
theorem applyFallback_of_ne_empty (r : Row) (h : r.category ≠ "") :
    applyFallback r = r := by
  simp [applyFallback, h]

/-- From an empty accumulator, a keyword-tier fold computes exactly the first
category (in list order) whose keywords match, provided no category is named
by the empty string. -/
theorem keywordFoldl_empty_eq_find (kt : List (String × List String)) (text : String)
    (hn : ∀ c ∈ kt, c.1 ≠ "") :
    kt.foldl (fun a c => if a == "" && keywordsMatch c.2 text then c.1 else a) ""
      = match kt.find? (fun c => keywordsMatch c.2 text) with
        | some c => c.1
        | none => "" := by
  induction kt with
  | nil => rfl
  | cons hd tl ih =>
    cases hm : keywordsMatch hd.2 text with
    | true =>
      simp only [List.foldl_cons, List.find?_cons, hm, beq_self_eq_true, Bool.true_and, if_true]
      exact keywordFoldl_of_ne_empty tl text hd.1 (hn hd (List.mem_cons_self hd tl))
    | false =>
      simp only [List.foldl_cons, List.find?_cons, hm, beq_self_eq_true, Bool.true_and,
        Bool.false_eq_true, if_false]
      exact ih (fun c hc => hn c (List.mem_cons_of_mem hd hc))

/-- An overwrite fold with an accumulator-independent condition keeps the
accumulator when no element satisfies the condition. -/
theorem overwriteFoldl_of_no_match {β : Type} (l : List β) (q : β → Bool)
    (pick : β → String) (acc : String) (h : ∀ b ∈ l, q b = false) :
    l.foldl (fun a b => if q b then pick b else a) acc = acc := by
  induction l generalizing acc with
  | nil => rfl
  | cons hd tl ih =>
    simp only [List.foldl_cons, h hd (List.mem_cons_self hd tl), Bool.false_eq_true,
      if_false]
    exact ih acc (fun b hb => h b (List.mem_cons_of_mem hd hb))

/-- An overwrite fold with an accumulator-independent condition computes `c`
whenever some element satisfies the condition and every element satisfying it
picks `c` (the wrap-order of the `when/otherwise` chain makes the last such
element win; with a single value `c` any of them gives `c`). -/
theorem overwriteFoldl_eq_of_uniq {β : Type} (l : List β) (q : β → Bool)
    (pick : β → String) (acc c : String) (hex : ∃ b ∈ l, q b = true)
    (huniq : ∀ b ∈ l, q b = true → pick b = c) :
    l.foldl (fun a b => if q b then pick b else a) acc = c := by
  induction l generalizing acc with
  | nil => exact absurd hex (by simp)
  | cons hd tl ih =>
    cases hq : q hd with
    | true =>
      simp only [List.foldl_cons, hq, if_true]
      by_cases hex' : ∃ b ∈ tl, q b = true
      · exact ih _ hex' (fun b hb h => huniq b (List.mem_cons_of_mem hd hb) h)
      · rw [overwriteFoldl_of_no_match tl q pick (pick hd)
          (fun b hb => by
            cases hqb : q b with
            | true => exact absurd ⟨b, hb, hqb⟩ hex'
            | false => rfl)]
        exact huniq hd (List.mem_cons_self hd tl) hq
    | false =>
      simp only [List.foldl_cons, hq, Bool.false_eq_true, if_false]
      refine ih _ ?_ (fun b hb h => huniq b (List.mem_cons_of_mem hd hb) h)
      obtain ⟨b, hb, hqb⟩ := hex
      rcases List.mem_cons.mp hb with rfl | hb'
      · exact absurd hqb (by simp [hq])
      · exact ⟨b, hb', hqb⟩

/-- A successful dictionary lookup corresponds to an entry of the flattened
tier-0 condition list. -/
theorem directMapLookup_mem (dm : List (String × List (String × String)))
    (d e c : String) (h : directMapLookup dm d e = some c) :
    ((d, e), c) ∈ tier0Conditions dm := by
  obtain ⟨p, hp, hq⟩ := Option.bind_eq_some.mp h
  obtain ⟨q, hq', rfl⟩ := Option.map_eq_some'.mp hq
  have hpmem : p ∈ dm := List.mem_of_find?_eq_some hp
  have hqmem : q ∈ p.2 := List.mem_of_find?_eq_some hq'
  have hpd : p.1 = d := by simpa using List.find?_some hp
  have hqe : q.1 = e := by simpa using List.find?_some hq'
  simp only [tier0Conditions, List.mem_flatMap, List.mem_map]
  exact ⟨p, hpmem, q, hqmem, by rw [hpd, hqe]⟩

/-- When the (department, expense_type) pair of a row with an empty category
has a direct-mapping entry and the flattened mapping has no duplicate keys,
Tier 0 assigns exactly the mapped category. -/
theorem applyTier0_category_of_lookup (dm : List (String × List (String × String)))
    (r : Row) (c : String) (hr : r.category = "")
    (hnod : ((tier0Conditions dm).map Prod.fst).Nodup)
    (h : directMapLookup dm r.department r.expense_type = some c) :
    (applyTier0 dm true r).category = c := by
  have hmem : ((r.department, r.expense_type), c) ∈ tier0Conditions dm :=
    directMapLookup_mem dm _ _ c h
  simp only [applyTier0, if_true]
  refine overwriteFoldl_eq_of_uniq (tier0Conditions dm)
    (fun b => r.department == b.1.1 && r.expense_type == b.1.2 && r.category == "")
    (fun b => b.2) r.category c ⟨((r.department, r.expense_type), c), hmem, ?_⟩ ?_
  · simp [hr]
  · rintro b hb hqb
    simp only [Bool.and_eq_true, beq_iff_eq] at hqb
    obtain ⟨⟨h1, h2⟩, -⟩ := hqb
    have hb1 : (Prod.fst b) = ((r.department, r.expense_type) : String × String) := by
      obtain ⟨⟨b1, b2⟩, bc⟩ := b
      simp only [Prod.mk.injEq]
      exact ⟨h1.symm, h2.symm⟩
    have := List.inj_on_of_nodup_map hnod hb hmem hb1
    rw [this]

/-- The flattened direct mapping has pairwise distinct
(department, expense_type) keys (the Python dicts cannot hold duplicates). -/
theorem tier0Conditions_nodup_keys :
    ((tier0Conditions DIRECT_EXPENSE_TYPE_MAPPING).map Prod.fst).Nodup := by decide

/-- Every direct-mapping target is one of the declared categories. -/
theorem tier0Conditions_values_in_categories :
    ∀ p ∈ tier0Conditions DIRECT_EXPENSE_TYPE_MAPPING, p.2 ∈ CATEGORIES := by decide

/-- Every keyword-table category name is one of the declared categories. -/
theorem category_keywords_keys_in_categories :
    ∀ c ∈ CATEGORY_KEYWORDS, c.1 ∈ CATEGORIES := by decide

/-- No declared category is the empty string (the unclassified sentinel). -/
theorem empty_not_in_categories : "" ∉ CATEGORIES := by decide

/-- C6: when direct mapping is enabled, a record whose (department,
expense_type) pair is in the direct mapping receives exactly the mapped
category, whatever its description holds; the lookup is an exact string
match. -/
theorem classify_direct_mapping_precedence (r : Row) (c : String)
    (h : directMapLookup DIRECT_EXPENSE_TYPE_MAPPING r.department r.expense_type
      = some c) :
    (classifyRowWith DIRECT_EXPENSE_TYPE_MAPPING CATEGORY_KEYWORDS true r).category
      = c ∧
    ∀ desc : String,
      (classifyRowWith DIRECT_EXPENSE_TYPE_MAPPING CATEGORY_KEYWORDS true
          { r with description := desc }).category = c := by
  have key : ∀ r' : Row,
      directMapLookup DIRECT_EXPENSE_TYPE_MAPPING r'.department r'.expense_type
        = some c →
      (classifyRowWith DIRECT_EXPENSE_TYPE_MAPPING CATEGORY_KEYWORDS true r').category
        = c := by
    intro r' h'
    have h0 : (applyTier0 DIRECT_EXPENSE_TYPE_MAPPING true (resetCategory r')).category
        = c :=
      applyTier0_category_of_lookup _ _ _ rfl tier0Conditions_nodup_keys h'
    have hc : c ≠ "" := by
      intro hcc
      exact empty_not_in_categories
        (hcc ▸ tier0Conditions_values_in_categories _
          (directMapLookup_mem _ _ _ _ h'))
    have hne0 : (applyTier0 DIRECT_EXPENSE_TYPE_MAPPING true
        (resetCategory r')).category ≠ "" := by
      rw [h0]; exact hc
    simp only [classifyRowWith]
    rw [applyKeywordTier_of_ne_empty _ _ _ hne0,
      applyKeywordTier_of_ne_empty _ _ _ hne0, applyFallback_of_ne_empty _ hne0]
    exact h0
  exact ⟨key r h, fun desc => key { r with description := desc } h⟩

/-- Witness for C6: an HMRC record with expense type `Desktop Services` is
mapped to `IT` even though its description says `legal advice`. -/
theorem classify_direct_mapping_precedence_witness :
    (classifyRowWith DIRECT_EXPENSE_TYPE_MAPPING CATEGORY_KEYWORDS true
        { department := "HMRC", expense_type := "Desktop Services",
          description := "legal advice", supplier := "ACME LTD",
          amount := 100, date := 0, category := "" }).category = "IT" :=
  (classify_direct_mapping_precedence
    { department := "HMRC", expense_type := "Desktop Services",
      description := "legal advice", supplier := "ACME LTD",
      amount := 100, date := 0, category := "" } "IT" (by decide)).1

/-- Tier 0 only ever writes the `category` column. -/
theorem applyTier0_description (dm : List (String × List (String × String)))
    (u : Bool) (r : Row) : (applyTier0 dm u r).description = r.description := by
  cases u <;> rfl

/-- No declared keyword-table category is named by the empty string. -/
theorem category_keywords_keys_ne_empty :
    ∀ c ∈ CATEGORY_KEYWORDS, c.1 ≠ "" := fun c hc he =>
  empty_not_in_categories (he ▸ category_keywords_keys_in_categories c hc)

/-- C2: for a record left unclassified by Tier 0, Tier 1 assigns the first
category in declaration order with any case-insensitively matching keyword in
the description (and later categories never overwrite it, so the final
category equals it); with no matching keyword anywhere, Tier 1 leaves the
record unclassified. -/
theorem tier1_first_matching_category_wins (r : Row) (u : Bool)
    (h0 : (applyTier0 DIRECT_EXPENSE_TYPE_MAPPING u (resetCategory r)).category = "") :
    (firstKeywordCategory CATEGORY_KEYWORDS r.description = none →
      (applyKeywordTier CATEGORY_KEYWORDS Row.description
        (applyTier0 DIRECT_EXPENSE_TYPE_MAPPING u (resetCategory r))).category = "") ∧
    ∀ c : String, firstKeywordCategory CATEGORY_KEYWORDS r.description = some c →
      (classifyRowWith DIRECT_EXPENSE_TYPE_MAPPING CATEGORY_KEYWORDS u r).category
        = c := by
  have hdesc : (applyTier0 DIRECT_EXPENSE_TYPE_MAPPING u
      (resetCategory r)).description = r.description :=
    applyTier0_description _ _ _
  constructor
  · intro hnone
    have hfind : CATEGORY_KEYWORDS.find?
        (fun c => keywordsMatch c.2 r.description) = none := by
      simpa [firstKeywordCategory] using hnone
    simp only [applyKeywordTier, hdesc, h0]
    rw [keywordFoldl_empty_eq_find _ _ category_keywords_keys_ne_empty, hfind]
  · intro c hc
    obtain ⟨p, hp, hpc⟩ := Option.map_eq_some'.mp hc
    have hcc : c ∈ CATEGORIES :=
      hpc ▸ category_keywords_keys_in_categories p (List.mem_of_find?_eq_some hp)
    have hcne : c ≠ "" := fun he => empty_not_in_categories (he ▸ hcc)
    have hx1 : (applyKeywordTier CATEGORY_KEYWORDS Row.description
        (applyTier0 DIRECT_EXPENSE_TYPE_MAPPING u (resetCategory r))).category = c := by
      simp only [applyKeywordTier, hdesc, h0]
      rw [keywordFoldl_empty_eq_find _ _ category_keywords_keys_ne_empty, hp]
      exact hpc
    have hne : (applyKeywordTier CATEGORY_KEYWORDS Row.description
        (applyTier0 DIRECT_EXPENSE_TYPE_MAPPING u (resetCategory r))).category ≠ "" := by
      rw [hx1]; exact hcne
    simp only [classifyRowWith]
    rw [applyKeywordTier_of_ne_empty _ _ _ hne, applyFallback_of_ne_empty _ hne]
    exact hx1

/-- Witness for C2: with direct mapping disabled, a record described
`legal costs` matches no earlier category's keywords and is assigned `Legal`. -/
theorem tier1_first_matching_category_wins_witness :
    (classifyRowWith DIRECT_EXPENSE_TYPE_MAPPING CATEGORY_KEYWORDS false
        { department := "HMRC", expense_type := "", description := "legal costs",
          supplier := "CHAMBERS", amount := 50, date := 0, category := "" }).category
      = "Legal" :=
  (tier1_first_matching_category_wins
    { department := "HMRC", expense_type := "", description := "legal costs",
      supplier := "CHAMBERS", amount := 50, date := 0, category := "" }
    false rfl).2 "Legal" (by decide)

/-- An overwrite fold that only ever writes values from `S` produces either
the empty string or a member of `S`. -/
theorem overwriteFoldl_mem {β : Type} (l : List β) (q : String → β → Bool)
    (pick : β → String) (S : List String) (acc : String)
    (hl : ∀ b ∈ l, pick b ∈ S) (hacc : acc = "" ∨ acc ∈ S) :
    l.foldl (fun a b => if q a b then pick b else a) acc = "" ∨
      l.foldl (fun a b => if q a b then pick b else a) acc ∈ S := by
  induction l generalizing acc with
  | nil => exact hacc
  | cons hd tl ih =>
    simp only [List.foldl_cons]
    have hacc' : (if q acc hd then pick hd else acc) = "" ∨
        (if q acc hd then pick hd else acc) ∈ S := by
      cases hq : q acc hd with
      | true =>
        simp only [hq, if_true]
        exact Or.inr (hl hd (List.mem_cons_self hd tl))
      | false =>
        simp only [hq, Bool.false_eq_true, if_false]
        exact hacc
    exact ih _ (fun b hb => hl b (List.mem_cons_of_mem hd hb)) hacc'

/-- C5: under a valid configuration (direct-mapping targets and keyword-table
categories inside the declared enumeration), every classified record's
category is a declared category or `Uncategorised`, never empty; and no
keyword tier or fallback overwrites a category assigned by an earlier tier. -/
theorem classify_category_wellformed
    (dm : List (String × List (String × String))) (kt : List (String × List String))
    (hdm : ∀ p ∈ tier0Conditions dm, p.2 ∈ CATEGORIES)
    (hkt : ∀ c ∈ kt, c.1 ∈ CATEGORIES)
    (df : List Row) (u : Bool) :
    (∀ r ∈ classify_paymentsWith dm kt df u,
      (r.category ∈ CATEGORIES ∨ r.category = "Uncategorised") ∧ r.category ≠ "") ∧
    (∀ r : Row, r.category ≠ "" →
      applyKeywordTier kt Row.description r = r ∧
      applyKeywordTier kt Row.expense_type r = r ∧ applyFallback r = r) := by
  constructor
  · rintro r' hr'
    obtain ⟨r, -, rfl⟩ := List.mem_map.mp hr'
    have m0 : (applyTier0 dm u (resetCategory r)).category = "" ∨
        (applyTier0 dm u (resetCategory r)).category ∈ CATEGORIES := by
      cases u with
      | false => exact Or.inl rfl
      | true =>
        simp only [applyTier0, if_true]
        exact overwriteFoldl_mem (tier0Conditions dm) _ _ CATEGORIES ""
          (fun b hb => hdm b hb) (Or.inl rfl)
    have m1 : (applyKeywordTier kt Row.description
          (applyTier0 dm u (resetCategory r))).category = "" ∨
        (applyKeywordTier kt Row.description
          (applyTier0 dm u (resetCategory r))).category ∈ CATEGORIES := by
      simp only [applyKeywordTier]
      exact overwriteFoldl_mem kt _ _ CATEGORIES _ (fun b hb => hkt b hb) m0
    have m2 : (applyKeywordTier kt Row.expense_type (applyKeywordTier kt Row.description
          (applyTier0 dm u (resetCategory r)))).category = "" ∨
        (applyKeywordTier kt Row.expense_type (applyKeywordTier kt Row.description
          (applyTier0 dm u (resetCategory r)))).category ∈ CATEGORIES := by
      simp only [applyKeywordTier]
      exact overwriteFoldl_mem kt _ _ CATEGORIES _ (fun b hb => hkt b hb) m1
    simp only [classifyRowWith, applyFallback]
    rcases m2 with h2 | h2
    · rw [if_pos (by simp [h2])]
      exact ⟨Or.inr rfl, by simp⟩
    · rw [if_neg (by simp; intro he; exact empty_not_in_categories (he ▸ h2))]
      exact ⟨Or.inl h2, fun he => empty_not_in_categories (he ▸ h2)⟩
  · intro r hr
    exact ⟨applyKeywordTier_of_ne_empty kt Row.description r hr,
      applyKeywordTier_of_ne_empty kt Row.expense_type r hr,
      applyFallback_of_ne_empty r hr⟩



/-- Witness for C5 at a concrete record and the repository configuration. -/
theorem classify_category_wellformed_witness :
    (c5WitnessOut.category ∈ CATEGORIES ∨ c5WitnessOut.category = "Uncategorised") ∧
      c5WitnessOut.category ≠ "" :=
  (classify_category_wellformed DIRECT_EXPENSE_TYPE_MAPPING CATEGORY_KEYWORDS
    tier0Conditions_values_in_categories category_keywords_keys_in_categories
    [c5WitnessRow] true).1 c5WitnessOut (by decide)

/-! ## High-payment detector -/

/-- Filtering by a disjunction of two row-wise disjoint predicates is a
permutation of the two separate filters, appended. -/
theorem filter_or_perm {α : Type} (p q : α → Bool) (l : List α)
    (h : ∀ x ∈ l, ¬(p x = true ∧ q x = true)) :
    (l.filter (fun x => p x || q x)).Perm (l.filter p ++ l.filter q) := by
  induction l with
  | nil => simp
  | cons hd tl ih =>
    have ih' := ih (fun x hx => h x (List.mem_cons_of_mem hd hx))
    cases hp : p hd with
    | true =>
      have hq : q hd = false := by
        cases hq : q hd with
        | true => exact absurd ⟨hp, hq⟩ (h hd (List.mem_cons_self hd tl))
        | false => rfl
      simp only [List.filter_cons, hp, hq, Bool.true_or, if_true, Bool.false_eq_true,
        if_false]
      exact ih'.cons hd
    | false =>
      cases hq : q hd with
      | true =>
        simp only [List.filter_cons, hp, hq, Bool.false_or, if_true, Bool.false_eq_true,
          if_false]
        exact (ih'.cons hd).trans List.perm_middle.symm
      | false =>
        simp only [List.filter_cons, hp, hq, Bool.false_or, Bool.false_eq_true, if_false]
        exact ih'

/-- The per-threshold high-payment pass, for any threshold table with distinct
departments: the emitted (department, supplier, amount) triples are a
permutation of those of the qualifying rows. -/
theorem hp_flatMap_perm (ts : List (String × ℚ)) (df : List Row)
    (hts : (ts.map Prod.fst).Nodup) :
    ((ts.flatMap (fun t =>
        (df.filter (fun r => r.department == t.1 && t.2 < r.amount)).map (fun r =>
          { anomaly_type := "high_payment"
            severity := "high"
            department := r.department
            supplier := r.supplier
            details := "Payment of £" ++ toString r.amount ++ " exceeds £" ++
              toString t.2 ++ " threshold"
            amount := r.amount
            count := 1 : Anomaly }))).map anomalyTriple).Perm
      ((df.filter (fun r =>
        ts.any (fun t => r.department == t.1 && t.2 < r.amount))).map rowTriple) := by
  induction ts with
  | nil => simp
  | cons t ts ih =>
    simp only [List.map_cons] at hts
    have hnd := List.nodup_cons.mp hts
    have hdisj : ∀ x ∈ df,
        ¬((x.department == t.1 && t.2 < x.amount) = true ∧
          (ts.any (fun t' => x.department == t'.1 && t'.2 < x.amount)) = true) := by
      rintro x hx ⟨h1, h2⟩
      simp only [Bool.and_eq_true, beq_iff_eq, decide_eq_true_eq] at h1
      simp only [List.any_eq_true, Bool.and_eq_true, beq_iff_eq,
        decide_eq_true_eq] at h2
      obtain ⟨t', ht', h2a, -⟩ := h2
      exact hnd.1 (h1.1 ▸ h2a ▸ List.mem_map_of_mem Prod.fst ht')
    have hA : (((df.filter (fun r => r.department == t.1 && t.2 < r.amount)).map
        (fun r =>
          { anomaly_type := "high_payment"
            severity := "high"
            department := r.department
            supplier := r.supplier
            details := "Payment of £" ++ toString r.amount ++ " exceeds £" ++
              toString t.2 ++ " threshold"
            amount := r.amount
            count := 1 : Anomaly })).map anomalyTriple) =
        (df.filter (fun r => r.department == t.1 && t.2 < r.amount)).map rowTriple := by
      rw [List.map_map]; rfl
    simp only [List.flatMap_cons, List.map_append, List.any_cons, hA]
    refine (List.Perm.append_left _ (ih hnd.2)).trans ?_
    rw [← List.map_append]
    exact ((filter_or_perm _ _ df hdisj).map rowTriple).symm

/-- C4: the high-payment detector emits exactly one anomaly per qualifying
record — the emitted (department, supplier, amount) triples are a permutation
of the qualifying rows' triples, so departments without a configured
threshold contribute nothing — and every emitted anomaly has type
`high_payment`, severity `high` and count 1. -/
theorem detect_high_payments_spec (df : List Row) :
    ((detect_high_payments df).map anomalyTriple).Perm
      ((df.filter qualifiesHighPayment).map rowTriple) ∧
    ∀ a ∈ detect_high_payments df,
      a.anomaly_type = "high_payment" ∧ a.severity = "high" ∧ a.count = 1 := by
  constructor
  · simpa [detect_high_payments, qualifiesHighPayment] using
      hp_flatMap_perm HIGH_PAYMENT_THRESHOLDS df (by decide)
  · intro a ha
    simp only [detect_high_payments, List.mem_flatMap, List.mem_map] at ha
    obtain ⟨t, -, r, -, rfl⟩ := ha
    exact ⟨rfl, rfl, rfl⟩


/-- Witness for C4: the 934,001 payment is flagged with the stated fields
(and, per the permutation, it is the only anomaly). -/
theorem detect_high_payments_spec_witness :
    ((detect_high_payments [hpWitnessRow]).getD 0
        { anomaly_type := "", severity := "", department := "", supplier := "",
          details := "", amount := 0, count := 0 }).anomaly_type = "high_payment" ∧
    ((detect_high_payments [hpWitnessRow]).getD 0
        { anomaly_type := "", severity := "", department := "", supplier := "",
          details := "", amount := 0, count := 0 }).severity = "high" ∧
    ((detect_high_payments [hpWitnessRow]).getD 0
        { anomaly_type := "", severity := "", department := "", supplier := "",
          details := "", amount := 0, count := 0 }).count = 1 :=
  (detect_high_payments_spec [hpWitnessRow]).2 _ (by decide)

/-! ## Duplicate-pattern detector -/

/-- The adjacent-pair loop succeeds exactly when the list is not a chain of
gaps strictly greater than the window. -/
theorem hasCloseDates_iff_not_chain (dates : List ℤ) (w : ℤ) :
    hasCloseDates dates w = true ↔
      ¬ List.Chain' (fun x y => w < y - x) dates := by
  induction dates with
  | nil => simp [hasCloseDates]
  | cons a tl ih =>
    cases tl with
    | nil => simp [hasCloseDates]
    | cons b rest =>
      simp only [hasCloseDates, Bool.or_eq_true, decide_eq_true_eq,
        List.chain'_cons]
      rw [not_and_or, not_lt]
      exact or_congr Iff.rfl ih

/-- C3: on an ascending-sorted date list, the optimized adjacent-pair scan is
extensionally equal to the naive all-pairs check — it flags exactly when some
two dates anywhere in the group are at most `w` days apart. -/
theorem hasCloseDates_eq_anyPairWithinNaive (dates : List ℤ) (w : ℤ)
    (hs : dates.Sorted (· ≤ ·)) :
    hasCloseDates dates w = anyPairWithinNaive dates w := by
  by_cases hw : 0 ≤ w
  · haveI : IsTrans ℤ (fun x y => w < y - x) := ⟨fun x y z h1 h2 => by omega⟩
    rw [Bool.eq_iff_iff, hasCloseDates_iff_not_chain, anyPairWithinNaive,
      decide_eq_true_iff, List.chain'_iff_pairwise, List.pairwise_iff_get]
    constructor
    · intro h
      push_neg at h
      obtain ⟨i, j, hij, hle⟩ := h
      have hmono : dates.get i ≤ dates.get j := hs.rel_get_of_lt hij
      exact ⟨i, j, hij, by rw [abs_of_nonneg (sub_nonneg.mpr hmono)]; omega⟩
    · rintro ⟨i, j, hij, habs⟩ hpair
      have hgt := hpair i j hij
      have hmono : dates.get i ≤ dates.get j := hs.rel_get_of_lt hij
      rw [abs_of_nonneg (sub_nonneg.mpr hmono)] at habs
      omega
  · have h1 : ¬ hasCloseDates dates w = true := by
      rw [hasCloseDates_iff_not_chain]
      intro hnc
      exact hnc (List.Chain'.imp (fun x y hxy => by omega) hs.chain')
    have h2 : ¬ anyPairWithinNaive dates w = true := by
      rw [anyPairWithinNaive, decide_eq_true_iff]
      rintro ⟨i, j, hij, habs⟩
      have := abs_nonneg (dates.get j - dates.get i)
      omega
    rw [Bool.eq_iff_iff]
    exact iff_of_false h1 h2

/-- Witness for C3 at the spec's example group dates (gaps 2 and 29, window
7): the scan flags, and so does the naive check. -/
theorem hasCloseDates_eq_anyPairWithinNaive_witness :
    hasCloseDates [0, 2, 31] 7 = anyPairWithinNaive [0, 2, 31] 7 :=
  hasCloseDates_eq_anyPairWithinNaive [0, 2, 31] 7 (by decide)

/-- In a duplicate-free list, filtering by a predicate that characterises one
member yields exactly one element. -/
theorem length_filter_eq_one_of_nodup {α : Type} (l : List α) (hl : l.Nodup)
    (a : α) (ha : a ∈ l) (p : α → Bool) (hp : ∀ x, p x = true ↔ x = a) :
    (l.filter p).length = 1 := by
  induction l with
  | nil => exact absurd ha (List.not_mem_nil a)
  | cons hd tl ih =>
    have hnd := List.nodup_cons.mp hl
    rcases List.mem_cons.mp ha with rfl | hatl
    · have hpa : p a = true := (hp a).mpr rfl
      have htl : tl.filter p = [] := by
        rw [List.filter_eq_nil_iff]
        intro x hx hpx
        exact hnd.1 (((hp x).mp hpx) ▸ hx)
      simp [List.filter_cons, hpa, htl]
    · have hphd : p hd = false := by
        cases hq : p hd with
        | true => exact absurd (((hp hd).mp hq) ▸ hatl) hnd.1
        | false => rfl
      simp only [List.filter_cons, hphd, Bool.false_eq_true, if_false]
      exact ih hnd.2 hatl

/-- A group key with at least one member occurs among the grouping keys. -/
theorem mem_dupKeys_of_groupCount_pos (df : List Row) (k : String × String × ℚ)
    (h : 1 ≤ groupCount df k) : k ∈ dupKeys df := by
  have hne : df.filter (keyMatches k) ≠ [] := by
    intro he
    rw [groupCount, he] at h
    simp at h
  obtain ⟨r, hr⟩ := List.exists_mem_of_ne_nil _ hne
  have hrdf : r ∈ df := (List.mem_filter.mp hr).1
  have hkm := (List.mem_filter.mp hr).2
  simp only [keyMatches, Bool.and_eq_true, beq_iff_eq] at hkm
  obtain ⟨⟨ha1, ha2⟩, ha3⟩ := hkm
  simp only [dupKeys, List.mem_dedup, List.mem_map]
  exact ⟨r, hrdf, by rw [ha1, ha2, ha3]⟩

/-- C8: a (department, supplier, amount) group of size ≥ 2 whose sorted dates
contain an adjacent pair within the window produces exactly one anomaly; it
carries the whole group size as `count`, the shared amount, severity `medium`
for size 2–3 and `high` for size ≥ 4. -/
theorem detect_duplicate_patterns_spec (df : List Row) (k : String × String × ℚ)
    (h2 : 2 ≤ groupCount df k)
    (hc : hasCloseDates (groupDates df k) duplicate_window_days = true) :
    ((detect_duplicate_patterns df).filter (fun a =>
        a.department == k.1 && a.supplier == k.2.1 && a.amount == k.2.2)).length
      = 1 ∧
    ∀ a ∈ detect_duplicate_patterns df,
      a.department = k.1 → a.supplier = k.2.1 → a.amount = k.2.2 →
        a.anomaly_type = "duplicate_pattern" ∧ a.count = groupCount df k ∧
        a.severity = (if 4 ≤ groupCount df k then "high" else "medium") := by
  have hkdup : k ∈ dupKeys df :=
    mem_dupKeys_of_groupCount_pos df k (le_trans (by norm_num) h2)
  have hkmem : k ∈ ((dupKeys df).filter (fun k' => 2 ≤ groupCount df k')).filter
      (fun k' => hasCloseDates (groupDates df k') duplicate_window_days) := by
    rw [List.mem_filter, List.mem_filter]
    exact ⟨⟨hkdup, by simpa using h2⟩, hc⟩
  have hnodup : (((dupKeys df).filter (fun k' => 2 ≤ groupCount df k')).filter
      (fun k' => hasCloseDates (groupDates df k') duplicate_window_days)).Nodup :=
    ((List.nodup_dedup _).filter _).filter _
  constructor
  · simp only [detect_duplicate_patterns]
    rw [List.filter_map, List.length_map]
    refine length_filter_eq_one_of_nodup _ hnodup k hkmem _ (fun x => ?_)
    simp only [Function.comp_apply, Bool.and_eq_true, beq_iff_eq, Prod.ext_iff]
    constructor
    · rintro ⟨⟨hx1, hx2⟩, hx3⟩
      exact ⟨hx1, hx2, hx3⟩
    · rintro ⟨hx1, hx2, hx3⟩
      exact ⟨⟨hx1, hx2⟩, hx3⟩
  · intro a ha h1 hsup hamt
    simp only [detect_duplicate_patterns, List.mem_map] at ha
    obtain ⟨k', hk', rfl⟩ := ha
    have hkk : k' = k := by
      refine Prod.ext ?_ (Prod.ext ?_ ?_)
      · exact h1
      · exact hsup
      · exact hamt
    subst hkk
    exact ⟨rfl, rfl, rfl⟩


/-- Witness for C8 at the spec's example group: exactly one anomaly. -/
theorem detect_duplicate_patterns_spec_witness :
    ((detect_duplicate_patterns dupWitnessDf).filter (fun a =>
        a.department == ("HMRC" : String) && a.supplier == ("S" : String) &&
        a.amount == (100 : ℚ))).length = 1 :=
  (detect_duplicate_patterns_spec dupWitnessDf ("HMRC", "S", 100)
    (by decide) (by decide)).1

/-! ## Supplier-concentration detector -/

/-- C7: a (department, supplier) pair is flagged `supplier_concentration_spend`
iff the supplier's share of the department's spend strictly exceeds the 0.15
threshold; every such anomaly has severity `high`, amount the supplier's total
spend and count the supplier's transaction count. -/
theorem detect_supplier_concentration_spend_spec (df : List Row) (d s : String) :
    ((∃ a ∈ detect_supplier_concentration df,
        a.anomaly_type = "supplier_concentration_spend" ∧
        a.department = d ∧ a.supplier = s) ↔
      concentration_threshold_spend <
        supplierTotalSpend df d s / deptTotalSpend df d) ∧
    ∀ a ∈ detect_supplier_concentration df,
      a.anomaly_type = "supplier_concentration_spend" → a.department = d →
      a.supplier = s →
        a.severity = "high" ∧ a.amount = supplierTotalSpend df d s ∧
        a.count = supplierTxnCount df d s := by
  constructor
  · constructor
    · rintro ⟨a, ha, htype, hdept, hsup⟩
      simp only [detect_supplier_concentration, List.mem_append, List.mem_map,
        List.mem_filter] at ha
      rcases ha with ⟨p, ⟨hp, hcond⟩, rfl⟩ | ⟨p, ⟨hp, hcond⟩, rfl⟩
      · rw [← hdept, ← hsup]
        exact of_decide_eq_true hcond
      · have h2 : ("supplier_concentration_txn" : String)
            = "supplier_concentration_spend" := htype
        exact absurd h2 (by decide)
    · intro hcond
      have hne : supplierTotalSpend df d s ≠ 0 := by
        intro h0
        rw [h0, zero_div] at hcond
        exact absurd hcond (by norm_num [concentration_threshold_spend])
      have hpair : (d, s) ∈ supplierPairs df := by
        have hne2 : df.filter (fun r => r.department == d && r.supplier == s) ≠ [] := by
          intro he
          rw [supplierTotalSpend, he] at hne
          simp at hne
        obtain ⟨r, hr⟩ := List.exists_mem_of_ne_nil _ hne2
        have hrdf := (List.mem_filter.mp hr).1
        have hcondr := (List.mem_filter.mp hr).2
        simp only [Bool.and_eq_true, beq_iff_eq] at hcondr
        simp only [supplierPairs, List.mem_dedup, List.mem_map]
        exact ⟨r, hrdf, by rw [hcondr.1, hcondr.2]⟩
      refine ⟨{ anomaly_type := "supplier_concentration_spend"
                severity := "high"
                department := d
                supplier := s
                details := toString (supplierTotalSpend df d s / deptTotalSpend df d * 100) ++ "% of department total spend"
                amount := supplierTotalSpend df d s
                count := supplierTxnCount df d s }, ?_, rfl, rfl, rfl⟩
      simp only [detect_supplier_concentration, List.mem_append]
      left
      simp only [List.mem_map, List.mem_filter]
      exact ⟨(d, s), ⟨hpair, decide_eq_true hcond⟩, rfl⟩
  · intro a ha htype hdept hsup
    simp only [detect_supplier_concentration, List.mem_append, List.mem_map,
      List.mem_filter] at ha
    rcases ha with ⟨p, ⟨hp, hcond⟩, rfl⟩ | ⟨p, ⟨hp, hcond⟩, rfl⟩
    · have hd2 : p.1 = d := hdept
      have hs2 : p.2 = s := hsup
      refine ⟨rfl, ?_, ?_⟩
      · show supplierTotalSpend df p.1 p.2 = supplierTotalSpend df d s
        rw [hd2, hs2]
      · show supplierTxnCount df p.1 p.2 = supplierTxnCount df d s
        rw [hd2, hs2]
    · have h2 : ("supplier_concentration_txn" : String)
          = "supplier_concentration_spend" := htype
      exact absurd h2 (by decide)


unseal Rat.mul Rat.inv Rat.add Rat.sub in
/-- Witness for C7: supplier `A` is flagged, and by the theorem its share
strictly exceeds the threshold. -/
theorem detect_supplier_concentration_spend_spec_witness :
    concentration_threshold_spend <
      supplierTotalSpend concWitnessDf "D" "A" / deptTotalSpend concWitnessDf "D" :=
  (detect_supplier_concentration_spend_spec concWitnessDf "D" "A").1.mp
    ⟨(detect_supplier_concentration concWitnessDf).getD 0
        { anomaly_type := "", severity := "", department := "", supplier := "",
          details := "", amount := 0, count := 0 },
      by decide, by decide, by decide, by decide⟩

/-! ## Detector order in the aggregated report -/

/-- Dropping the empty frames before vertical concatenation does not change
the concatenation. -/
theorem flatten_filter_pos {α : Type} (l : List (List α)) :
    (l.filter (fun a => 0 < a.length)).flatten = l.flatten := by
  induction l with
  | nil => rfl
  | cons hd tl ih => cases hd <;> simp [List.filter_cons, ih]

/-- A successful `detect_anomalies` run is exactly the three detector frames
concatenated in their fixed order. -/
theorem detect_anomalies_ok_eq (df : List Row) (out : List Anomaly)
    (h : detect_anomalies df = Except.ok out) :
    out = detect_high_payments df ++ (detect_duplicate_patterns df ++
      detect_supplier_concentration df) := by
  simp only [detect_anomalies] at h
  rw [if_neg (by simp)] at h
  simp only [pl_concat] at h
  split at h
  · exact absurd h (by simp)
  · have := (Except.ok.injEq _ _).mp h.symm
    rw [this, flatten_filter_pos]
    simp

/-- Every high-payment anomaly row carries the `high_payment` type. -/
theorem mem_detect_high_payments_type (df : List Row) :
    ∀ a ∈ detect_high_payments df, a.anomaly_type = "high_payment" := by
  intro a ha
  simp only [detect_high_payments, List.mem_flatMap, List.mem_map] at ha
  obtain ⟨t, -, r, -, rfl⟩ := ha
  rfl

/-- Every duplicate-pattern anomaly row carries the `duplicate_pattern` type. -/
theorem mem_detect_duplicate_type (df : List Row) :
    ∀ a ∈ detect_duplicate_patterns df, a.anomaly_type = "duplicate_pattern" := by
  intro a ha
  simp only [detect_duplicate_patterns, List.mem_map] at ha
  obtain ⟨k, -, rfl⟩ := ha
  rfl

/-- The concentration frame is the spend rows followed by the txn rows, and
each row carries the corresponding type. -/
theorem mem_detect_concentration_type (df : List Row) :
    ∀ a ∈ detect_supplier_concentration df,
      a.anomaly_type = "supplier_concentration_spend" ∨
      a.anomaly_type = "supplier_concentration_txn" := by
  intro a ha
  simp only [detect_supplier_concentration, List.mem_append, List.mem_map,
    List.mem_filter] at ha
  rcases ha with ⟨p, -, rfl⟩ | ⟨p, -, rfl⟩
  · exact Or.inl rfl
  · exact Or.inr rfl

/-- A relation satisfied by every pair of members holds pairwise. -/
theorem pairwise_of_mem_pairs {α : Type} (l : List α) (R : α → α → Prop)
    (h : ∀ a ∈ l, ∀ b ∈ l, R a b) : l.Pairwise R := by
  induction l with
  | nil => exact List.Pairwise.nil
  | cons hd tl ih =>
    refine List.Pairwise.cons
      (fun b hb => h hd (List.mem_cons_self hd tl) b (List.mem_cons_of_mem hd hb))
      (ih (fun a ha b hb =>
        h a (List.mem_cons_of_mem hd ha) b (List.mem_cons_of_mem hd hb)))

/-- Within the concentration frame, every spend row precedes every txn row:
the rank of the type is monotone along the frame. -/
theorem detect_concentration_rank_pairwise (df : List Row) :
    (detect_supplier_concentration df).Pairwise (fun a b =>
      anomalyTypeRank a.anomaly_type ≤ anomalyTypeRank b.anomaly_type) := by
  simp only [detect_supplier_concentration]
  rw [List.pairwise_append]
  refine ⟨pairwise_of_mem_pairs _ _ (fun a ha b hb => ?_),
    pairwise_of_mem_pairs _ _ (fun a ha b hb => ?_), fun a ha b hb => ?_⟩
  all_goals
    simp only [List.mem_map, List.mem_filter] at ha hb
    obtain ⟨p, -, rfl⟩ := ha
    obtain ⟨q, -, rfl⟩ := hb
    simp [anomalyTypeRank]

/-- C10: in any successful `detect_anomalies` output, rows appear in fixed
detector order — every `high_payment` row precedes every `duplicate_pattern`
row, which precedes every `supplier_concentration_spend` row, which precedes
every `supplier_concentration_txn` row (ranks are monotone along the table),
and every row is one of those four types. -/
theorem detect_anomalies_detector_order (df : List Row) (out : List Anomaly)
    (h : detect_anomalies df = Except.ok out) :
    (∀ a ∈ out, anomalyTypeRank a.anomaly_type ≤ 3) ∧
    ∀ (i j : ℕ) (hi : i < out.length) (hj : j < out.length),
      anomalyTypeRank (out.get ⟨i, hi⟩).anomaly_type <
        anomalyTypeRank (out.get ⟨j, hj⟩).anomaly_type → i < j := by
  have hout := detect_anomalies_ok_eq df out h
  subst hout
  have hpw : (detect_high_payments df ++ (detect_duplicate_patterns df ++
      detect_supplier_concentration df)).Pairwise (fun a b =>
      anomalyTypeRank a.anomaly_type ≤ anomalyTypeRank b.anomaly_type) := by
    rw [List.pairwise_append]
    refine ⟨pairwise_of_mem_pairs _ _ (fun a ha b hb => ?_), ?_,
      fun a ha b hb => ?_⟩
    · rw [mem_detect_high_payments_type df a ha,
        mem_detect_high_payments_type df b hb]
    · rw [List.pairwise_append]
      refine ⟨pairwise_of_mem_pairs _ _ (fun a ha b hb => ?_),
        detect_concentration_rank_pairwise df, fun a ha b hb => ?_⟩
      · rw [mem_detect_duplicate_type df a ha, mem_detect_duplicate_type df b hb]
      · rw [mem_detect_duplicate_type df a ha]
        rcases mem_detect_concentration_type df b hb with hb2 | hb2 <;>
          rw [hb2] <;> simp [anomalyTypeRank]
    · rw [mem_detect_high_payments_type df a ha]
      simp only [anomalyTypeRank, if_true]
      exact Nat.zero_le _
  constructor
  · intro a ha
    rcases List.mem_append.mp ha with h1 | h1
    · rw [mem_detect_high_payments_type df a h1]; simp [anomalyTypeRank]
    · rcases List.mem_append.mp h1 with h2 | h2
      · rw [mem_detect_duplicate_type df a h2]; simp [anomalyTypeRank]
      · rcases mem_detect_concentration_type df a h2 with h3 | h3 <;>
          rw [h3] <;> simp [anomalyTypeRank]
  · intro i j hi hj hlt
    by_contra hij
    push_neg at hij
    rcases Nat.lt_or_ge j i with hji | hji
    · have := List.pairwise_iff_get.mp hpw ⟨j, hj⟩ ⟨i, hi⟩ hji
      omega
    · have : i = j := Nat.le_antisymm hji hij
      subst this
      exact absurd hlt (lt_irrefl _)


/-- Recover an `Except.ok` equation from the option projection. -/
theorem except_eq_ok_of_toOption {ε α : Type} (e : Except ε α) (x : α)
    (h : e.toOption = some x) : e = Except.ok x := by
  cases e with
  | error err => simp [Except.toOption] at h
  | ok a => simp [Except.toOption] at h; rw [h]


unseal Rat.mul Rat.inv Rat.add Rat.sub in
/-- Witness for C10: in the three-row report for `ordWitnessDf`, the
`high_payment` row (rank 0, index 0) precedes the spend-concentration row
(rank 2, index 1). -/
theorem detect_anomalies_detector_order_witness : (0 : ℕ) < 1 :=
  (detect_anomalies_detector_order ordWitnessDf ordWitnessOut
    (except_eq_ok_of_toOption _ _ (by decide))).2 0 1
    (by decide) (by decide) (by decide)
